import Mathlib

/-!
Verification development for the clip acquisition and curation engine of the
twitch_compyle repository. Each Python function relevant to the checked
properties is translated into an executable Lean definition, and the stated
properties are settled as theorems about those definitions.

Conventions used throughout:
- Python lists are Lean lists; in-place mutation is modelled by threading the
  list state through the functions (a function that mutates its argument
  returns the new state).
- Machine floats only occur as clip durations and backoff delays; every value
  the properties mention is integral, so durations are modelled as integers
  and backoff delays in whole milliseconds (0.5 s = 500 ms).
- Network requests are modelled by the stream of responses the server would
  produce: the k-th issued request receives the k-th entry of the stream.
- Python string comparison is lexicographic on code points; it is modelled by
  an executable lexicographic order on the underlying character lists.
-/

/-! ## Part 1: diversity reorderer, from compyle/actions/edit.py

The source functions are ne, dfs and rearrange. dfs shuffles data in place
with pairwise swaps and backtracking; it and the helpers are translated with
the list state threaded through. The recursion of dfs advances i toward
len(data) while the list object (hence its length) never changes, so the
translation fixes n = len(data) and carries a structural fuel argument
bounding the recursion depth; callers pass fuel = n, which the guard
i == n makes sufficient, keeping the definition kernel-computable.
-/

/-- Translation of ne(data, key, i, j): tests data[i][key] != data[j][key].
Out-of-range indices are compared as none; all call sites use in-range
indices. -/
def neKey (key : α → K) [DecidableEq K] (data : List α) (i j : Nat) : Bool :=
  decide (data[i]?.map key ≠ data[j]?.map key)

/-- Translation of the Python parallel assignment
data[i], data[j] = data[j], data[i] on a list; out of range it is the
identity, matching that call sites only swap in-range indices. -/
def listSwap (l : List α) (i j : Nat) : List α :=
  match l[i]?, l[j]? with
  | some a, some b => (l.set i b).set j a
  | _, _ => l

/-- Translation of the for j in range(i+1, len(data)) loop body of dfs.
next is the recursive call dfs(data, key, i+1) at the enclosing fuel. The
loop tries ne(data, key, i-1, j), swaps i and j, recurses, and undoes the
swap when the recursion fails, exactly as in the source. -/
def dfsForAux (key : α → K) [DecidableEq K] (i : Nat) (next : List α → Bool × List α) :
    List Nat → List α → Bool × List α
  | [], data => (false, data)
  | j :: rest, data =>
    if i == 0 || neKey key data (i - 1) j then
      match next (listSwap data i j) with
      | (true, d2) => (true, d2)
      | (false, d2) => dfsForAux key i next rest (listSwap d2 i j)
    else dfsForAux key i next rest data

/-- Translation of dfs(data, key, i) with n = len(data) fixed and a fuel
argument bounding the recursion depth (callers pass fuel = n, which
suffices because i only grows toward the i == n base case). The first
branch is the literal source condition i == 0 or ne(data, key, i, i); the
loop scans j in range(i+1, len(data)). -/
def dfsAux (key : α → K) [DecidableEq K] (n : Nat) : Nat → Nat → List α → Bool × List α
  | 0, i, data => if n < 3 || i == n then (true, data) else (false, data)
  | f + 1, i, data =>
    if n < 3 || i == n then (true, data)
    else
      match (if i == 0 || neKey key data i i then dfsAux key n f (i + 1) data
             else (false, data)) with
      | (true, d) => (true, d)
      | (false, d) =>
        dfsForAux key i (fun d1 => dfsAux key n f (i + 1) d1)
          (List.range' (i + 1) (n - (i + 1))) d

/-- Entry point matching dfs(data, key=None, i=0); the result is the returned
boolean together with the final state of the list. -/
def dfs (data : List α) (key : α → K) [DecidableEq K] (i : Nat := 0) : Bool × List α :=
  dfsAux key data.length data.length i data

/-- Translation of rearrange(clips, key, max_length=15). The source returns
the clips object in whatever state the search leaves it: when
len(clips) < max_length the state after dfs(clips, key, 1), otherwise the
untouched input (the and short-circuits, so dfs is not called). -/
def rearrange (clips : List α) (key : α → K) [DecidableEq K]
    (max_length : Nat := 15) : List α :=
  if clips.length < max_length then (dfs clips key 1).2 else clips

/-! ## Part 2: endpoint registry, from compyle/services/routing.py

Endpoint.build_url filters the query through the declared parameter sets,
rejects calls with a missing or falsy required parameter, and assembles the
url from the parsed base components. The url is modelled structurally as the
path part together with the encoded query association list (urlencode of a
dict emits each key exactly once). Python raise is modelled by Except.error
carrying the parameter set named in the error message. -/

/-- Endpoint data, from Endpoint.__init__: validated base url and slug plus
the required and optional parameter sets (modelled as lists without
duplicates, as produced from Python sets). -/
structure Endpoint where
  base_url : String
  slug : String
  required_params : List String
  optional_params : List String

/-- The dict comprehension of build_url: the query entries whose key lies in
required | optional and whose value is truthy (a non-empty string), keyed
once per key of the set union. The misspelling is the local name used in
the source. -/
def Endpoint.noramlized (e : Endpoint) (query : List (String × String)) :
    List (String × String) :=
  ((e.required_params ++ e.optional_params).dedup).filterMap fun k =>
    match query.lookup k with
    | some v => if v = "" then none else some (k, v)
    | none => none

/-- Translation of Endpoint.build_url: the two raise statements become
errors naming the parameter set interpolated into their message; on success
the url is the base with the slug appended, carrying exactly the normalized
query. -/
def Endpoint.build_url (e : Endpoint) (query : List (String × String)) :
    Except (List String) (String × List (String × String)) :=
  if (e.noramlized query).length < e.required_params.length then
    Except.error e.required_params
  else if e.required_params.any fun p => ((e.noramlized query).lookup p).isNone then
    Except.error (e.required_params.filter fun p => ((e.noramlized query).lookup p).isNone)
  else
    Except.ok (e.base_url ++ e.slug, e.noramlized query)

/-- A query entry is absent or null or empty: the condition under which
build_url treats a parameter as not provided. -/
def missingIn (query : List (String × String)) (r : String) : Prop :=
  query.lookup r = none ∨ query.lookup r = some ""

instance (query : List (String × String)) (r : String) : Decidable (missingIn query r) :=
  inferInstanceAs (Decidable (query.lookup r = none ∨ query.lookup r = some ""))

/-! ## Part 3: request executor, from Router in compyle/services/routing.py

Router.request issues the request through Router.__execute_request, whose
response.raise_for_status() raises requests.exceptions.HTTPError whenever
the status code is in the 4xx or 5xx range, and then runs a retry loop
while response.status_code >= 500 and max_retries > 0 with branches for
503, 429 and everything else. In the 503 and 429 branches the loop body
changes no loop state (response, backoff and max_retries keep their
values), so the Python while loop would iterate forever; the model returns
the distinguished outcome hangs in that case. Sleeps are recorded in
milliseconds (backoff starts at 0.5 s = 500 ms and doubles). -/

/-- Outcome of Router.request on a given response stream. -/
inductive ReqOutcome
  | ok (status : Nat) (sleepsMs : List Nat)
  | raised (status : Nat) (sleepsMs : List Nat)
  | hangs (status : Nat) (sleepsMs : List Nat)
  deriving DecidableEq

/-- Translation of Router.__execute_request for the k-th issued request:
the response with status resp k is obtained and raise_for_status raises
HTTPError exactly when 400 <= status < 600. -/
def executeRequest (resp : Nat → Nat) (k : Nat) : Except Nat Nat :=
  if 400 ≤ resp k ∧ resp k < 600 then Except.error (resp k) else Except.ok (resp k)

/-- Translation of the while response.status_code >= 500 and max_retries > 0
loop of Router.request. The 503 branch only logs the status page and the
429 branch only logs the reset delta; neither re-executes the request,
sleeps, or decrements max_retries, so reaching either leaves every loop
variable unchanged and the Python loop never terminates: the model returns
hangs there. The remaining branch sleeps backoff, re-executes, doubles the
backoff and decrements max_retries. -/
def retryLoop (resp : Nat → Nat) : Nat → Nat → Nat → Nat → List Nat → ReqOutcome
  | 0, _, status, _, sleeps => ReqOutcome.ok status sleeps
  | r + 1, k, status, backoffMs, sleeps =>
    if 500 ≤ status then
      if status = 503 then ReqOutcome.hangs status sleeps
      else if status = 429 then ReqOutcome.hangs status sleeps
      else
        match executeRequest resp k with
        | Except.error e => ReqOutcome.raised e (sleeps ++ [backoffMs])
        | Except.ok s2 => retryLoop resp r (k + 1) s2 (backoffMs * 2) (sleeps ++ [backoffMs])
    else ReqOutcome.ok status sleeps

/-- Translation of Router.request: one initial __execute_request, then the
retry loop with backoff = 0.5 s and max_retries = 3. An HTTPError raised
by the initial call propagates before the loop is ever entered. -/
def routerRequest (resp : Nat → Nat) : ReqOutcome :=
  match executeRequest resp 0 with
  | Except.error e => ReqOutcome.raised e []
  | Except.ok s => retryLoop resp 3 1 s 500 []

/-! ## Part 4: clip model and python string comparison

Clip records carry the fields the curation pipeline reads. vod_offset may be
null in the API payload; offsets and durations are modelled as integers and
view counts as naturals (the checked properties only involve integral
values). The derived clip_url and broadcaster_url annotations added to an
accepted clip concern fields no checked property reads and are omitted.
Python compares the created_at strings lexicographically by code point,
which clLt implements on the character lists. -/

/-- Clip record as parsed from a page of the clips endpoint. -/
structure Clip where
  id : String
  broadcaster_id : String
  broadcaster_name : String
  video_id : String
  vod_offset : Option Int
  duration : Int
  view_count : Nat
  created_at : String
  language : String
  deriving DecidableEq

/-- One page of the paginated clips response: the data records and the
pagination cursor (the empty string models an absent or empty cursor). -/
structure Page where
  data : List Clip
  cursor : String
  deriving DecidableEq

/-- Python max on two integers. -/
def pyMax (a b : Int) : Int := if a ≤ b then b else a

/-- Python abs on an integer. -/
def pyAbs (a : Int) : Int := if a < 0 then -a else a

/-- Python code-point comparison of one character pair. -/
def chLt (a b : Char) : Bool := a.toNat < b.toNat

/-- Python string less-than: lexicographic on code points. -/
def clLt : List Char → List Char → Bool
  | [], [] => false
  | [], _ :: _ => true
  | _ :: _, [] => false
  | a :: as, b :: bs => chLt a b || (a.toNat == b.toNat && clLt as bs)

/-! ## Part 5: filter, deduplicator and pagination, from
TwitchAPI.__parse_clips in compyle/services/controllers/twitch.py

The criteria are the local constants of __parse_clips. The near-duplicate
test is the condition of the not any(...) generator. The inner for loop has
a continue for blacklisted broadcasters, a break on a low view count, and a
break once len(clips) == max_clips after an accepted candidate; each break
leaves only the inner loop, and the outer for loop over the pages then
requests the next page. The outer loop breaks before parsing when the page
data or the cursor is falsy. -/

/-- Local constant min_views of __parse_clips. -/
def min_views : Nat := 50

/-- Local constant max_clips of __parse_clips. -/
def max_clips : Nat := 20

/-- Local constant min_duration of __parse_clips (round(5, 1) = 5). -/
def min_duration : Int := 5

/-- Local constant max_duration of __parse_clips (round(40, 1) = 40). -/
def max_duration : Int := 40

/-- Local constant language of __parse_clips. -/
def language : String := "fr"

/-- Local constant whitelist of __parse_clips. -/
def whitelist : List String := []

/-- Local constant blacklist of __parse_clips. -/
def blacklist : List String := []

/-- The near-duplicate test of the deduplication step: same video_id and
vod_offset values within max of the two durations. Both offsets are present
whenever the test runs in the pipeline (the acceptance condition already
checked them); the none case is unreachable there. -/
def sameMoment (a b : Clip) : Bool :=
  a.video_id == b.video_id &&
    match a.vod_offset, b.vod_offset with
    | some x, some y => decide (pyAbs (x - y) ≤ pyMax a.duration b.duration)
    | _, _ => false

/-- The acceptance condition of __parse_clips: whitelisted broadcaster, or
an available video with an offset, a matching language (no filter when the
configured language is falsy) and a duration within the bounds. Python
operator precedence groups the or against the whole and chain. -/
def acceptCheck (clip : Clip) : Bool :=
  whitelist.contains clip.broadcaster_id ||
    (clip.video_id != "" && clip.vod_offset.isSome &&
      (language == "" || clip.language == language) &&
      (decide (min_duration ≤ clip.duration) && decide (clip.duration < max_duration)))

/-- Translation of the inner for clip in response loop of __parse_clips over
one page, threading the accepted clips list. continue recurses on the rest,
break returns the accumulator, and an accepted candidate is appended before
the max_clips test. -/
def parsePage : List Clip → List Clip → List Clip
  | [], clips => clips
  | clip :: rest, clips =>
    if blacklist.contains clip.broadcaster_id then parsePage rest clips
    else if clip.view_count < min_views then clips
    else if acceptCheck clip then
      if clips.any fun c => sameMoment clip c then parsePage rest clips
      else
        let clips2 := clips ++ [clip]
        if max_clips != 0 && clips2.length == max_clips then clips2
        else parsePage rest clips2
    else parsePage rest clips

/-- Translation of the outer for _ in range(max(1, pages)) loop of
__parse_clips: the budget counts the remaining iterations, the page stream
supplies the successive responses, and the loop breaks before parsing when
the data or the cursor of the fetched page is falsy. An exhausted stream
ends the run (the model provides no further responses). -/
def parsePagesLoop : Nat → List Page → List Clip → List Clip
  | 0, _, clips => clips
  | _ + 1, [], clips => clips
  | b + 1, page :: rest, clips =>
    if page.data.isEmpty || page.cursor == "" then clips
    else parsePagesLoop b rest (parsePage page.data clips)

/-! ## Part 6: ranking, the clips.sort call shared by
TwitchAPI.__parse_clips and TwitchApi.get_game_clips

Both modules end with clips.sort(key=lambda clip: (clip[view_count],
clip[created_at]), reverse=True). Python list.sort is a stable sort; with
reverse=True an element precedes another exactly when its key tuple is not
smaller, ties keeping input order. A stable sort is determined by that
precedence relation, so the call is modelled as the stable insertion sort
with it. -/

/-- The sort key tuple (view_count, created_at). -/
def clipKey (c : Clip) : Nat × String := (c.view_count, c.created_at)

/-- Python tuple less-than on a key pair: first components by integer order,
then the created_at strings by code point. -/
def keyLt (a b : Nat × String) : Bool :=
  a.1 < b.1 || (a.1 == b.1 && clLt a.2.data b.2.data)

/-- Precedence in the reverse-sorted output: a may come before b exactly
when the key of a is not smaller than the key of b. -/
def rankLe (a b : Clip) : Prop := keyLt (clipKey a) (clipKey b) = false

instance : DecidableRel rankLe := fun a b => by unfold rankLe; infer_instance

/-- The clips.sort(key=..., reverse=True) call: the stable sort by the
composite key in descending order. -/
def rankClips (l : List Clip) : List Clip := l.insertionSort rankLe

/-- Result of TwitchAPI.__parse_clips on a response stream: up to 10 pages
are parsed and the accepted clips sorted. -/
def parse_clips (pages : List Page) : List Clip :=
  rankClips (parsePagesLoop 10 pages [])

/-! ## Part 7: pagination walker, from TwitchApi.get_game_clips in
compyle/services/twitch.py

This earlier snapshot of the collection loop parses a non-empty page first
and only then applies its stopping predicates: enough clips collected, lead
record below the view floor, or an empty cursor. An empty page triggers no
predicate; the loop just issues the next request. The inner loop has no
break: every record of the page is examined. -/

/-- The acceptance condition of the get_game_clips inner loop: available
video and offset, language fr, duration below 40. -/
def ggAccept (clip : Clip) : Bool :=
  clip.video_id != "" && clip.vod_offset.isSome && clip.language == "fr" &&
    decide (clip.duration < 40)

/-- Translation of the inner for clip in response loop of get_game_clips;
accepted candidates that are no near-duplicate of a selected clip are
appended. -/
def ggPage : List Clip → List Clip → List Clip
  | [], clips => clips
  | clip :: rest, clips =>
    if ggAccept clip && !(clips.any fun c => sameMoment clip c) then
      ggPage rest (clips ++ [clip])
    else ggPage rest clips

/-- Translation of the for page in range(maximum_page) loop of
get_game_clips: a non-empty page is parsed first, then the stopping
predicates run in source order (minimum_clips = 20, minimum_views = 50,
then the cursor); an empty page only advances to the next request. -/
def ggWalk : Nat → List Page → List Clip → List Clip
  | 0, _, clips => clips
  | _ + 1, [], clips => clips
  | b + 1, page :: rest, clips =>
    if page.data.isEmpty then ggWalk b rest clips
    else
      let clips2 := ggPage page.data clips
      if 20 ≤ clips2.length then clips2
      else if (match page.data with | c :: _ => decide (c.view_count < 50) | [] => false) then
        clips2
      else if page.cursor == "" then clips2
      else ggWalk b rest clips2

/-- Result of TwitchApi.get_game_clips on a response stream: up to 10 pages
with maximum_page = 10, then the final sort. -/
def get_game_clips (pages : List Page) : List Clip :=
  rankClips (ggWalk 10 pages [])

/-! ## Part 8: concrete inputs used for scenario checks -/

/-- Response stream answering 503 to the first two requests and 200
afterwards. -/
def resp503 : Nat → Nat := fun k => if k < 2 then 503 else 200

/-- Response stream answering 429 to every request. -/
def resp429 : Nat → Nat := fun _ => 429

/-- First clip of the scenario with video v1, offset 10 s, duration 5 s. -/
def clipE1 : Clip :=
  { id := "e1", broadcaster_id := "b1", broadcaster_name := "n1", video_id := "v1",
    vod_offset := some 10, duration := 5, view_count := 100,
    created_at := "2023-01-01", language := "fr" }

/-- Second clip of the scenario: same video v1, offset 12 s, duration 5 s. -/
def clipE2 : Clip :=
  { id := "e2", broadcaster_id := "b2", broadcaster_name := "n2", video_id := "v1",
    vod_offset := some 12, duration := 5, view_count := 90,
    created_at := "2023-01-02", language := "fr" }

/-- A page carrying both near-duplicate clips and a further cursor. -/
def pageE : Page := { data := [clipE1, clipE2], cursor := "cur" }

/-- Family of acceptable clips of one video at offsets 1000 s apart, so far
apart that no two are near-duplicates. -/
def mkClip (k : Nat) : Clip :=
  { id := "c", broadcaster_id := "b", broadcaster_name := "n", video_id := "v",
    vod_offset := some (1000 * k), duration := 10, view_count := 100,
    created_at := "2024-01-01", language := "fr" }

/-- A page of 20 acceptable pairwise distinct clips with a further cursor. -/
def pageFull : Page := { data := (List.range 20).map mkClip, cursor := "cur" }

/-- A following page with one more acceptable clip. -/
def pageExtra : Page := { data := [mkClip 20], cursor := "cur2" }

/-- A non-empty page of acceptable records whose returned cursor is empty. -/
def pageNoCursor : Page := { data := [clipE1], cursor := "" }

/-- Scenario clip with 10 views created 2023-01-02, broadcaster x. -/
def clipA1 : Clip :=
  { id := "a1", broadcaster_id := "x", broadcaster_name := "x", video_id := "va",
    vod_offset := some 0, duration := 10, view_count := 10,
    created_at := "2023-01-02", language := "fr" }

/-- Scenario clip with 50 views created 2023-01-01, broadcaster x. -/
def clipA2 : Clip :=
  { id := "a2", broadcaster_id := "x", broadcaster_name := "x", video_id := "vb",
    vod_offset := some 0, duration := 10, view_count := 50,
    created_at := "2023-01-01", language := "fr" }

/-- The auth endpoint of the route table in compyle/services/twitch.py. -/
def authEndpoint : Endpoint :=
  { base_url := "https://id.twitch.tv/oauth2", slug := "/token",
    required_params := ["client_id", "client_secret", "grant_type"],
    optional_params := [] }

/-! ## Part 9: lemmas on the diversity reorderer -/

theorem listSwap_length (l : List α) (i j : Nat) : (listSwap l i j).length = l.length := by
  unfold listSwap
  split <;> simp

theorem neKey_self (key : α → K) [DecidableEq K] (data : List α) (i : Nat) :
    neKey key data i i = false := by
  simp [neKey]

theorem listSwap_listSwap (l : List α) (i j : Nat) (hij : i ≠ j)
    (hi : i < l.length) (hj : j < l.length) :
    listSwap (listSwap l i j) i j = l := by
  have ha : l[i]? = some l[i] := List.getElem?_eq_getElem hi
  have hb : l[j]? = some l[j] := List.getElem?_eq_getElem hj
  have hswap : listSwap l i j = (l.set i l[j]).set j l[i] := by
    unfold listSwap
    rw [ha, hb]
  rw [hswap]
  have h1 : ((l.set i l[j]).set j l[i])[i]? = some l[j] := by
    rw [List.getElem?_set_ne (Ne.symm hij), List.getElem?_set_self (by simpa using hi)]
  have h2 : ((l.set i l[j]).set j l[i])[j]? = some l[i] := by
    rw [List.getElem?_set_self (by simpa using hj)]
  have hres : listSwap ((l.set i l[j]).set j l[i]) i j
      = ((((l.set i l[j]).set j l[i]).set i l[i]).set j l[j]) := by
    unfold listSwap
    rw [h1, h2]
  rw [hres]
  apply List.ext_getElem?
  intro m
  by_cases hmj : m = j
  · subst hmj
    rw [List.getElem?_set_self (by simpa using hj), hb]
  · rw [List.getElem?_set_ne (fun h => hmj h.symm)]
    by_cases hmi : m = i
    · subst hmi
      rw [List.getElem?_set_self (by simpa using hi), ha]
    · rw [List.getElem?_set_ne (fun h => hmi h.symm),
        List.getElem?_set_ne (fun h => hmj h.symm),
        List.getElem?_set_ne (fun h => hmi h.symm)]

theorem dfsForAux_false (key : α → K) [DecidableEq K] {n : Nat} (i : Nat)
    (next : List α → Bool × List α)
    (hnext : ∀ d : List α, d.length = n → next d = (false, d)) :
    ∀ (js : List Nat) (data : List α), data.length = n →
      (∀ j ∈ js, i < j ∧ j < n) → dfsForAux key i next js data = (false, data) := by
  intro js
  induction js with
  | nil => intro data _ _; rfl
  | cons j rest ih =>
    intro data hlen hjs
    obtain ⟨hij, hjn⟩ := hjs j (List.mem_cons_self j rest)
    have hrest : ∀ x ∈ rest, i < x ∧ x < n := fun x hx => hjs x (List.mem_cons_of_mem _ hx)
    show (if i == 0 || neKey key data (i - 1) j then
            match next (listSwap data i j) with
            | (true, d2) => (true, d2)
            | (false, d2) => dfsForAux key i next rest (listSwap d2 i j)
          else dfsForAux key i next rest data) = (false, data)
    by_cases hc : (i == 0 || neKey key data (i - 1) j) = true
    · rw [if_pos hc, hnext _ (by rw [listSwap_length]; exact hlen)]
      show dfsForAux key i next rest (listSwap (listSwap data i j) i j) = (false, data)
      rw [listSwap_listSwap data i j (by omega) (by omega) (by omega)]
      exact ih data hlen hrest
    · rw [if_neg hc]
      exact ih data hlen hrest

theorem dfsAux_false (key : α → K) [DecidableEq K] {n : Nat} (hn : 3 ≤ n) :
    ∀ (fuel i : Nat) (data : List α), i < n → data.length = n →
      dfsAux key n fuel i data = (false, data) := by
  intro fuel
  induction fuel with
  | zero =>
    intro i data hi _
    show (if n < 3 || i == n then (true, data) else (false, data)) = (false, data)
    rw [if_neg (by simp only [Bool.or_eq_true, decide_eq_true_eq, beq_iff_eq]; omega)]
  | succ f ih =>
    intro i data hi hlen
    show (if n < 3 || i == n then (true, data)
          else
            match (if i == 0 || neKey key data i i then dfsAux key n f (i + 1) data
                   else (false, data)) with
            | (true, d) => (true, d)
            | (false, d) =>
              dfsForAux key i (fun d1 => dfsAux key n f (i + 1) d1)
                (List.range' (i + 1) (n - (i + 1))) d) = (false, data)
    rw [if_neg (by simp only [Bool.or_eq_true, decide_eq_true_eq, beq_iff_eq]; omega)]
    rw [neKey_self, Bool.or_false]
    by_cases hi0 : i = 0
    · subst hi0
      rw [if_pos (by rfl), ih 1 data (by omega) hlen]
      show dfsForAux key 0 (fun d1 => dfsAux key n f 1 d1) (List.range' 1 (n - 1)) data
          = (false, data)
      apply dfsForAux_false key 0 _ (fun d hd => ih 1 d (by omega) hd) _ data hlen
      intro j hj
      have := (List.mem_range'_1).mp hj
      omega
    · rw [if_neg (by simpa using hi0)]
      show dfsForAux key i (fun d1 => dfsAux key n f (i + 1) d1)
          (List.range' (i + 1) (n - (i + 1))) data = (false, data)
      by_cases hi1 : i + 1 < n
      · apply dfsForAux_false key i _ (fun d hd => ih (i + 1) d hi1 hd) _ data hlen
        intro j hj
        have := (List.mem_range'_1).mp hj
        omega
      · have hz : n - (i + 1) = 0 := by omega
        rw [hz]
        rfl

theorem dfsAux_short (key : α → K) [DecidableEq K] {n : Nat} (hn : n < 3)
    (fuel i : Nat) (data : List α) : dfsAux key n fuel i data = (true, data) := by
  cases fuel with
  | zero =>
    show (if n < 3 || i == n then (true, data) else (false, data)) = (true, data)
    rw [if_pos (by simp [hn])]
  | succ f =>
    show (if n < 3 || i == n then (true, data) else _) = (true, data)
    rw [if_pos (by simp [hn])]

theorem dfs_false (data : List α) (key : α → K) [DecidableEq K] (i : Nat)
    (hn : 3 ≤ data.length) (hi : i < data.length) : dfs data key i = (false, data) :=
  dfsAux_false key hn data.length i data hi rfl

theorem dfs_short (data : List α) (key : α → K) [DecidableEq K] (i : Nat)
    (hn : data.length < 3) : dfs data key i = (true, data) :=
  dfsAux_short key hn data.length i data

theorem rearrange_id (clips : List α) (key : α → K) [DecidableEq K] :
    rearrange clips key = clips := by
  unfold rearrange
  by_cases h : clips.length < 15
  · rw [if_pos h]
    by_cases h3 : clips.length < 3
    · rw [dfs_short clips key 1 h3]
    · rw [dfs_false clips key 1 (by omega) (by omega)]
  · rw [if_neg h]

/-! ## Part 10: order facts about the python string comparison and the
ranking comparator -/

theorem clLt_irrefl : ∀ l : List Char, clLt l l = false
  | [] => rfl
  | a :: as => by
    show (chLt a a || (a.toNat == a.toNat && clLt as as)) = false
    simp [chLt, clLt_irrefl as]

theorem clLt_trans : ∀ (x y z : List Char),
    clLt x y = true → clLt y z = true → clLt x z = true
  | [], [], _, hxy, _ => by simp [clLt] at hxy
  | [], _ :: _, [], _, hyz => by simp [clLt] at hyz
  | [], _ :: _, _ :: _, _, _ => rfl
  | _ :: _, [], _, hxy, _ => by simp [clLt] at hxy
  | _ :: _, _ :: _, [], _, hyz => by simp [clLt] at hyz
  | a :: as, b :: bs, c :: cs, hxy, hyz => by
    simp only [clLt, chLt, Bool.or_eq_true, Bool.and_eq_true, decide_eq_true_eq,
      beq_iff_eq] at hxy hyz ⊢
    rcases hxy with h1 | ⟨h1, h2⟩
    · rcases hyz with g1 | ⟨g1, g2⟩
      · exact Or.inl (by omega)
      · exact Or.inl (by omega)
    · rcases hyz with g1 | ⟨g1, g2⟩
      · exact Or.inl (by omega)
      · exact Or.inr ⟨by omega, clLt_trans as bs cs h2 g2⟩

theorem clLt_conn : ∀ (x y : List Char), clLt x y = false → clLt y x = false → x = y
  | [], [], _, _ => rfl
  | [], _ :: _, hxy, _ => by simp [clLt] at hxy
  | _ :: _, [], _, hyx => by simp [clLt] at hyx
  | a :: as, b :: bs, hxy, hyx => by
    simp only [clLt, chLt, Bool.or_eq_false_iff, Bool.and_eq_false_iff,
      decide_eq_false_iff_not, beq_iff_eq, beq_eq_false_iff_ne, ne_eq] at hxy hyx
    have hab : a.toNat = b.toNat := by omega
    have h1 : a = b := by
      apply Char.ext
      apply UInt32.ext
      exact hab
    have h2 : clLt as bs = false := by
      rcases hxy.2 with h | h
      · exact absurd hab h
      · exact h
    have h3 : clLt bs as = false := by
      rcases hyx.2 with h | h
      · exact absurd hab.symm h
      · exact h
    rw [h1, clLt_conn as bs h2 h3]

theorem string_ext {s t : String} (h : s.data = t.data) : s = t := by
  cases s
  cases t
  simp_all

theorem keyLt_irrefl (a : Nat × String) : keyLt a a = false := by
  simp [keyLt, clLt_irrefl]

theorem keyLt_trans {a b c : Nat × String} (h1 : keyLt a b = true)
    (h2 : keyLt b c = true) : keyLt a c = true := by
  simp only [keyLt, Bool.or_eq_true, Bool.and_eq_true, decide_eq_true_eq,
    beq_iff_eq] at h1 h2 ⊢
  rcases h1 with h1 | ⟨h1, h1l⟩
  · rcases h2 with h2 | ⟨h2, h2l⟩
    · exact Or.inl (by omega)
    · exact Or.inl (by omega)
  · rcases h2 with h2 | ⟨h2, h2l⟩
    · exact Or.inl (by omega)
    · exact Or.inr ⟨by omega, clLt_trans _ _ _ h1l h2l⟩

theorem keyLt_conn {a b : Nat × String} (h1 : keyLt a b = false)
    (h2 : keyLt b a = false) : a = b := by
  simp only [keyLt, Bool.or_eq_false_iff, Bool.and_eq_false_iff,
    decide_eq_false_iff_not, beq_iff_eq, beq_eq_false_iff_ne, ne_eq] at h1 h2
  have hfst : a.1 = b.1 := by omega
  have hsnd : a.2.data = b.2.data := by
    apply clLt_conn
    · rcases h1.2 with h | h
      · exact absurd hfst h
      · exact h
    · rcases h2.2 with h | h
      · exact absurd hfst.symm h
      · exact h
  exact Prod.ext hfst (string_ext hsnd)

theorem rankLe_isTotal : IsTotal Clip rankLe := by
  constructor
  intro a b
  by_cases h : keyLt (clipKey a) (clipKey b) = false
  · exact Or.inl h
  · right
    show keyLt (clipKey b) (clipKey a) = false
    by_contra hb
    have ha : keyLt (clipKey a) (clipKey b) = true := by
      cases hx : keyLt (clipKey a) (clipKey b)
      · exact absurd hx h
      · rfl
    have hbb : keyLt (clipKey b) (clipKey a) = true := by
      cases hx : keyLt (clipKey b) (clipKey a)
      · exact absurd hx hb
      · rfl
    have := keyLt_trans ha hbb
    rw [keyLt_irrefl] at this
    exact Bool.false_ne_true this

theorem rankLe_isTrans : IsTrans Clip rankLe := by
  constructor
  intro a b c hab hbc
  show keyLt (clipKey a) (clipKey c) = false
  by_contra hac
  have hac : keyLt (clipKey a) (clipKey c) = true := by
    cases hx : keyLt (clipKey a) (clipKey c)
    · exact absurd hx hac
    · rfl
  cases hba : keyLt (clipKey b) (clipKey a) with
  | true =>
    have := keyLt_trans hba hac
    rw [hbc] at this
    exact Bool.false_ne_true this
  | false =>
    have hkey : clipKey b = clipKey a := keyLt_conn hba hab
    rw [← hkey] at hac
    rw [hbc] at hac
    exact Bool.false_ne_true hac

/-! ## Part 11: the deduplication invariant and the ranking facts -/

theorem pyAbs_sub_comm (x y : Int) : pyAbs (x - y) = pyAbs (y - x) := by
  unfold pyAbs
  split <;> split <;> omega

theorem pyMax_comm (a b : Int) : pyMax a b = pyMax b a := by
  unfold pyMax
  split <;> split <;> omega

theorem sameMoment_symm (a b : Clip) : sameMoment a b = sameMoment b a := by
  unfold sameMoment
  by_cases hv : a.video_id = b.video_id
  · rcases ha : a.vod_offset with _ | x <;> rcases hb : b.vod_offset with _ | y <;>
      simp [hv, pyAbs_sub_comm, pyMax_comm]
  · rw [beq_eq_false_iff_ne.mpr hv, beq_eq_false_iff_ne.mpr (Ne.symm hv),
      Bool.false_and, Bool.false_and]

theorem pairwise_append_clip {acc : List Clip} {clip : Clip}
    (h : acc.Pairwise fun a b => sameMoment b a = false)
    (hdup : (acc.any fun c => sameMoment clip c) = false) :
    (acc ++ [clip]).Pairwise fun a b => sameMoment b a = false := by
  rw [List.pairwise_append]
  refine ⟨h, List.pairwise_singleton _ _, ?_⟩
  intro a ha b hb
  rw [List.mem_singleton] at hb
  subst hb
  have hall := List.any_eq_false.mp hdup a ha
  simpa using hall

theorem parsePage_pairwise (page : List Clip) :
    ∀ acc : List Clip, acc.Pairwise (fun a b => sameMoment b a = false) →
      (parsePage page acc).Pairwise (fun a b => sameMoment b a = false) := by
  induction page with
  | nil => intro acc h; exact h
  | cons clip rest ih =>
    intro acc h
    simp only [parsePage]
    by_cases h1 : blacklist.contains clip.broadcaster_id = true
    · rw [if_pos h1]
      exact ih acc h
    · rw [if_neg h1]
      by_cases h2 : clip.view_count < min_views
      · rw [if_pos h2]
        exact h
      · rw [if_neg h2]
        by_cases h3 : acceptCheck clip = true
        · rw [if_pos h3]
          by_cases h4 : (acc.any fun c => sameMoment clip c) = true
          · rw [if_pos h4]
            exact ih acc h
          · rw [if_neg h4]
            have h4f : (acc.any fun c => sameMoment clip c) = false :=
              Bool.eq_false_iff.mpr h4
            by_cases h5 : (max_clips != 0 && (acc ++ [clip]).length == max_clips) = true
            · rw [if_pos h5]
              exact pairwise_append_clip h h4f
            · rw [if_neg h5]
              exact ih (acc ++ [clip]) (pairwise_append_clip h h4f)
        · rw [if_neg h3]
          exact ih acc h

theorem parsePagesLoop_pairwise (pages : List Page) :
    ∀ (b : Nat) (acc : List Clip), acc.Pairwise (fun a b => sameMoment b a = false) →
      (parsePagesLoop b pages acc).Pairwise (fun a b => sameMoment b a = false) := by
  induction pages with
  | nil =>
    intro b acc h
    cases b <;> exact h
  | cons page rest ih =>
    intro b acc h
    cases b with
    | zero => exact h
    | succ b =>
      simp only [parsePagesLoop]
      by_cases h1 : (page.data.isEmpty || page.cursor == "") = true
      · rw [if_pos h1]
        exact h
      · rw [if_neg h1]
        exact ih b _ (parsePage_pairwise page.data acc h)

theorem rankClips_perm (l : List Clip) : (rankClips l).Perm l :=
  List.perm_insertionSort _ l

theorem rankClips_sorted (l : List Clip) : (rankClips l).Pairwise rankLe := by
  haveI := rankLe_isTotal
  haveI := rankLe_isTrans
  exact List.sorted_insertionSort rankLe l

theorem rankClips_filter_key (l : List Clip) (k : Nat × String) :
    (rankClips l).filter (fun c => clipKey c == k) = l.filter (fun c => clipKey c == k) := by
  have hpw : (l.filter fun c => clipKey c == k).Pairwise rankLe := by
    apply List.pairwise_of_forall_mem_list
    intro a ha b hb
    have hak : clipKey a = k := by simpa using (List.mem_filter.mp ha).2
    have hbk : clipKey b = k := by simpa using (List.mem_filter.mp hb).2
    show keyLt (clipKey a) (clipKey b) = false
    rw [hak, hbk, keyLt_irrefl]
  have hsub : List.Sublist (l.filter fun c => clipKey c == k) (rankClips l) :=
    List.sublist_insertionSort hpw (List.filter_sublist l)
  have hsub2 := List.Sublist.filter (fun c => clipKey c == k) hsub
  rw [List.filter_eq_self.mpr (fun a ha => (List.mem_filter.mp ha).2)] at hsub2
  have hlen : ((l.filter fun c => clipKey c == k)).length
      = ((rankClips l).filter fun c => clipKey c == k).length :=
    (((rankClips_perm l).filter (fun c => clipKey c == k)).length_eq).symm
  exact (List.Sublist.eq_of_length hsub2 hlen).symm

theorem retryLoop_hangs_status (resp : Nat → Nat) :
    ∀ (r k s b : Nat) (sl : List Nat) (st : Nat) (sl2 : List Nat),
      retryLoop resp r k s b sl = ReqOutcome.hangs st sl2 → st = 503 := by
  intro r
  induction r with
  | zero =>
    intro k s b sl st sl2 h
    exact absurd h (by simp [retryLoop])
  | succ r ih =>
    intro k s b sl st sl2 h
    simp only [retryLoop] at h
    by_cases h5 : 500 ≤ s
    · rw [if_pos h5] at h
      by_cases h503 : s = 503
      · rw [if_pos h503] at h
        cases h
        exact h503
      · rw [if_neg h503] at h
        by_cases h429 : s = 429
        · omega
        · rw [if_neg h429] at h
          cases hexec : executeRequest resp k with
          | error e =>
            rw [hexec] at h
            exact absurd h (by simp)
          | ok s2 =>
            rw [hexec] at h
            exact ih _ _ _ _ _ _ h
    · rw [if_neg h5] at h
      exact absurd h (by simp)

theorem ggWalk_delivers (page : Page) (rest : List Page) (b : Nat) (acc : List Clip)
    (hdata : page.data ≠ []) (hcursor : page.cursor = "") :
    ggWalk (b + 1) (page :: rest) acc = ggPage page.data acc := by
  simp only [ggWalk]
  rw [if_neg (by simpa [List.isEmpty_iff] using hdata)]
  by_cases h20 : 20 ≤ (ggPage page.data acc).length
  · rw [if_pos h20]
  · rw [if_neg h20]
    cases hd : page.data with
    | nil => exact absurd hd hdata
    | cons c cs =>
      by_cases hlead : c.view_count < 50
      · rw [if_pos (by simpa using hlead)]
      · rw [if_neg (by simpa using hlead), if_pos (by simp [hcursor])]

theorem parsePagesLoop_drops (page : Page) (rest : List Page) (b : Nat) (acc : List Clip)
    (hcursor : page.cursor = "") :
    parsePagesLoop (b + 1) (page :: rest) acc = acc := by
  simp only [parsePagesLoop]
  rw [if_pos (by simp [hcursor])]
/-! ## Part 12: lemmas about build_url -/

theorem map_fst_filterMap_sublist {α β : Type} [DecidableEq α]
    (f : α → Option (α × β)) (hf : ∀ a p, f a = some p → p.1 = a) :
    ∀ l : List α, List.Sublist ((l.filterMap f).map Prod.fst) l := by
  intro l
  induction l with
  | nil => simp
  | cons a l ih =>
    rw [List.filterMap_cons]
    cases hfa : f a with
    | none => exact List.Sublist.cons a ih
    | some p =>
      show ((p :: l.filterMap f).map Prod.fst).Sublist (a :: l)
      rw [List.map_cons, hf a p hfa]
      exact List.Sublist.cons₂ a ih

theorem mem_noramlized (e : Endpoint) (query : List (String × String)) (k v : String) :
    (k, v) ∈ e.noramlized query ↔
      (k ∈ e.required_params ∨ k ∈ e.optional_params) ∧
        query.lookup k = some v ∧ v ≠ "" := by
  unfold Endpoint.noramlized
  rw [List.mem_filterMap]
  constructor
  · rintro ⟨a, ha, hfa⟩
    rcases hq : query.lookup a with _ | w
    · simp only [hq] at hfa
      exact absurd hfa (by simp)
    · simp only [hq] at hfa
      by_cases hw : w = ""
      · rw [if_pos hw] at hfa
        exact absurd hfa (by simp)
      · rw [if_neg hw] at hfa
        have hp : a = k ∧ w = v := by
          simpa [Prod.ext_iff] using hfa
        obtain ⟨rfl, rfl⟩ := hp
        rw [List.mem_dedup, List.mem_append] at ha
        exact ⟨ha, hq, hw⟩
  · rintro ⟨hmem, hq, hv⟩
    refine ⟨k, ?_, ?_⟩
    · rw [List.mem_dedup, List.mem_append]
      exact hmem
    · simp only [hq, if_neg hv]

theorem noramlized_keys_nodup (e : Endpoint) (query : List (String × String)) :
    ((e.noramlized query).map Prod.fst).Nodup := by
  have hf : ∀ (a : String) (p : String × String),
      (match query.lookup a with
       | some v => if v = "" then none else some (a, v)
       | none => none) = some p → p.1 = a := by
    intro a p hfa
    rcases hq : query.lookup a with _ | w
    · simp only [hq] at hfa
      exact absurd hfa (by simp)
    · simp only [hq] at hfa
      by_cases hw : w = ""
      · rw [if_pos hw] at hfa
        exact absurd hfa (by simp)
      · rw [if_neg hw] at hfa
        obtain rfl : (a, w) = p := by simpa [Prod.ext_iff] using hfa
        rfl
  have hs := map_fst_filterMap_sublist _ hf
    ((e.required_params ++ e.optional_params).dedup)
  exact List.Nodup.sublist hs (List.nodup_dedup _)

theorem noramlized_lookup_isNone (e : Endpoint) (query : List (String × String))
    (r : String) (hr : r ∈ e.required_params) :
    ((e.noramlized query).lookup r).isNone = true ↔ missingIn query r := by
  rw [Option.isNone_iff_eq_none, List.lookup_eq_none_iff]
  unfold missingIn
  constructor
  · intro hall
    rcases hq : query.lookup r with _ | w
    · exact Or.inl rfl
    · by_cases hw : w = ""
      · subst hw
        exact Or.inr rfl
      · exfalso
        have hmem : (r, w) ∈ e.noramlized query :=
          (mem_noramlized e query r w).mpr ⟨Or.inl hr, hq, hw⟩
        have := hall (r, w) hmem
        simp at this
  · intro hmiss q hq
    by_contra hne
    simp only [bne_iff_ne, ne_eq, not_not] at hne
    have hq2 : (r, q.2) ∈ e.noramlized query := by
      rw [hne]
      simpa using hq
    have hm := (mem_noramlized e query r q.2).mp hq2
    rcases hmiss with hmn | hms
    · rw [hmn] at hm
      exact absurd hm.2.1 (by simp)
    · rw [hms] at hm
      have hv : "" = q.2 := by simpa using hm.2.1
      exact hm.2.2 hv.symm

/-! ## Part 13: the checked claims -/

/-- C1: the claim expects the backtracking reorder on any input of fewer
than 15 elements with no key in the majority to report success and produce
a permutation without adjacent equal keys, keeping an already placed
element when its key differs from its left neighbour. On the input with
the three pairwise distinct keys a, b, c, which already has no adjacent
equal keys and whose index 1 element already differs from its left
neighbour, the search of the source nevertheless fails and rearrange
returns the input with no satisfying flag: the in-place branch compares
ne(data, key, i, i), an element against itself, so it never fires, and the
search at the last position has no candidate left. -/
theorem dfs_rejects_already_diverse_input :
    (("a" : String) ≠ "b" ∧ ("b" : String) ≠ "c") ∧
      dfs ["a", "b", "c"] (fun s : String => s) 1 = (false, ["a", "b", "c"]) ∧
      rearrange ["a", "b", "c"] (fun s : String => s) = ["a", "b", "c"] := by
  refine ⟨by decide, by decide, by decide⟩

/-- C2: the claim expects a transient 503 to be retried with backoff up to
3 attempts, the 200 arriving on the third request being returned after two
sleeps. In the source, raise_for_status inside __execute_request raises
HTTPError for every status in the 4xx and 5xx range, so the first 503
propagates before the retry loop runs: no sleep happens and the 200 is
never fetched. -/
theorem request_raises_on_first_503 :
    resp503 0 = 503 ∧ resp503 1 = 503 ∧ resp503 2 = 200 ∧
      routerRequest resp503 = ReqOutcome.raised 503 [] := by
  refine ⟨rfl, rfl, rfl, by decide⟩

/-- C3: the curation never returns two clips that are near-duplicates in
the sense of the deduplication test, that is, sharing a video_id with
vod_offset values within max of the two durations; on the page carrying
the two overlapping clips of video v1 at offsets 10 and 12 with durations
5, only the first encountered clip is kept. -/
theorem parse_clips_no_near_duplicates :
    (∀ pages : List Page,
        (parse_clips pages).Pairwise fun a b => sameMoment a b = false) ∧
      parse_clips [pageE] = [clipE1] := by
  constructor
  · intro pages
    have h := parsePagesLoop_pairwise pages 10 [] List.Pairwise.nil
    have h2 : (parsePagesLoop 10 pages []).Pairwise fun a b => sameMoment a b = false :=
      h.imp fun hab => by rw [sameMoment_symm]; exact hab
    have hS : ∀ {x y : Clip}, sameMoment x y = false → sameMoment y x = false :=
      fun hxy => by rw [sameMoment_symm]; exact hxy
    exact ((rankClips_perm (parsePagesLoop 10 pages [])).pairwise_iff hS).mpr h2
  · decide

/-- C4: the claim expects a too-many-requests response to reach the
rate-limit branch, compute the wait until reset and surface a distinct
rate-limited condition. In the source that branch sits inside the loop
guarded by status >= 500, which 429 never satisfies, and raise_for_status
raises before the loop anyway: the branch is unreachable for every
response stream, and a 429 response instead propagates as an HTTPError
with no reset wait computed. -/
theorem rate_limited_branch_unreachable :
    (∀ (resp : Nat → Nat) (sl : List Nat),
        routerRequest resp ≠ ReqOutcome.hangs 429 sl) ∧
      routerRequest resp429 = ReqOutcome.raised 429 [] := by
  constructor
  · intro resp sl h
    unfold routerRequest at h
    rcases hexec : executeRequest resp 0 with e | s
    · rw [hexec] at h
      simp at h
    · rw [hexec] at h
      have := retryLoop_hangs_status resp 3 1 s 500 [] 429 sl h
      omega
  · decide

/-- C5: build_url fails exactly when some required parameter is absent or
null or empty in the query, the raised error naming a parameter set that
contains every missing required name; otherwise it succeeds with a query
string holding each parameter at most once, every required parameter, and
exactly those query entries whose key lies in required | optional and
whose value is non-empty. -/
theorem build_url_missing_and_exact_params (e : Endpoint)
    (query : List (String × String)) (hnodup : e.required_params.Nodup) :
    ((∃ r ∈ e.required_params, missingIn query r) →
        ∃ err, e.build_url query = Except.error err ∧
          (∀ r ∈ e.required_params, missingIn query r → r ∈ err) ∧
          err ⊆ e.required_params) ∧
    ((∀ r ∈ e.required_params, ¬ missingIn query r) →
        ∃ ps, e.build_url query = Except.ok (e.base_url ++ e.slug, ps) ∧
          (ps.map Prod.fst).Nodup ∧
          (∀ r ∈ e.required_params, ∃ v, (r, v) ∈ ps) ∧
          (∀ k v : String, (k, v) ∈ ps ↔
            (k ∈ e.required_params ∨ k ∈ e.optional_params) ∧
              query.lookup k = some v ∧ v ≠ "")) := by
  constructor
  · rintro ⟨r, hr, hmiss⟩
    unfold Endpoint.build_url
    by_cases hlen : (e.noramlized query).length < e.required_params.length
    · rw [if_pos hlen]
      exact ⟨e.required_params, rfl, fun r' hr' _ => hr', fun a ha => ha⟩
    · rw [if_neg hlen]
      have hany : (e.required_params.any fun p =>
          ((e.noramlized query).lookup p).isNone) = true := by
        rw [List.any_eq_true]
        exact ⟨r, hr, (noramlized_lookup_isNone e query r hr).mpr hmiss⟩
      rw [if_pos hany]
      refine ⟨_, rfl, ?_, fun a ha => (List.mem_filter.mp ha).1⟩
      intro r' hr' hmiss'
      rw [List.mem_filter]
      exact ⟨hr', (noramlized_lookup_isNone e query r' hr').mpr hmiss'⟩
  · intro hall
    have hex : ∀ r ∈ e.required_params, ∃ v, (r, v) ∈ e.noramlized query := by
      intro r hr
      have hnm : ¬ missingIn query r := hall r hr
      rcases hq : query.lookup r with _ | w
      · exact absurd (Or.inl hq) hnm
      · by_cases hw : w = ""
        · subst hw
          exact absurd (Or.inr hq) hnm
        · exact ⟨w, (mem_noramlized e query r w).mpr ⟨Or.inl hr, hq, hw⟩⟩
    have hanyf : (e.required_params.any fun p =>
        ((e.noramlized query).lookup p).isNone) = false := by
      rw [List.any_eq_false]
      intro r hr hNone
      exact hall r hr ((noramlized_lookup_isNone e query r hr).mp hNone)
    have hsubset : e.required_params ⊆ (e.noramlized query).map Prod.fst := by
      intro r hr
      obtain ⟨v, hv⟩ := hex r hr
      exact List.mem_map.mpr ⟨(r, v), hv, rfl⟩
    have hlen2 : e.required_params.length ≤ (e.noramlized query).length := by
      have := (List.subperm_of_subset hnodup hsubset).length_le
      simpa using this
    unfold Endpoint.build_url
    rw [if_neg (by omega), if_neg (by simp [hanyf])]
    exact ⟨e.noramlized query, rfl, noramlized_keys_nodup e query, hex,
      fun k v => mem_noramlized e query k v⟩

/-- Witness for C5 at the auth endpoint of the route table with a complete
query: build_url succeeds with exactly the three required parameters. -/
theorem build_url_missing_and_exact_params_witness :
    ∃ ps, authEndpoint.build_url
        [("client_id", "abc"), ("client_secret", "def"), ("grant_type", "ccred")]
        = Except.ok (authEndpoint.base_url ++ authEndpoint.slug, ps) ∧
      (ps.map Prod.fst).Nodup ∧
      (∀ r ∈ authEndpoint.required_params, ∃ v, (r, v) ∈ ps) ∧
      (∀ k v : String, (k, v) ∈ ps ↔
        (k ∈ authEndpoint.required_params ∨ k ∈ authEndpoint.optional_params) ∧
          [("client_id", "abc"), ("client_secret", "def"),
            ("grant_type", "ccred")].lookup k = some v ∧ v ≠ "") :=
  (build_url_missing_and_exact_params authEndpoint
    [("client_id", "abc"), ("client_secret", "def"), ("grant_type", "ccred")]
    (by decide)).2 (by decide)

/-- C6: the claim expects the curated output never to exceed max_clips = 20
accepted clips, also across page boundaries. The inner break fires only in
the page where the count first equals 20; pagination then continues, the
equality test no longer matches on later pages, and acceptance resumes: on
a page of 20 acceptable clips followed by a page with one more, the run
returns 21 clips, contradicting the claim and the comment of the source
naming 20 the maximum number of clips to return. -/
theorem parse_clips_exceeds_max_clips :
    max_clips = 20 ∧ (parse_clips [pageFull, pageExtra]).length = 21 := by
  refine ⟨rfl, ?_⟩
  show (rankClips (parsePagesLoop 10 [pageFull, pageExtra] [])).length = 21
  unfold rankClips
  rw [List.length_insertionSort]
  decide

/-- C7 as stated is false on TwitchAPI.__parse_clips: a non-empty page of
acceptable records whose returned cursor is empty is dropped whole, because
the emptiness and cursor checks run before the page is parsed. -/
theorem parse_clips_drops_final_page_records :
    pageNoCursor.data ≠ [] ∧ acceptCheck clipE1 = true ∧
      min_views ≤ clipE1.view_count ∧ parse_clips [pageNoCursor] = [] := by
  refine ⟨by decide, by decide, by decide, by decide⟩

/-- C7 amended: in the TwitchApi.get_game_clips walker the records of a
fetched non-empty page are parsed and accumulated before the stopping
predicates run, so a non-empty page with an empty cursor still contributes
its records; in the TwitchAPI.__parse_clips walker the empty-data and
empty-cursor checks run before parsing, so such a page contributes
nothing. -/
theorem walker_parse_versus_stop_order :
    (∀ (page : Page) (rest : List Page) (b : Nat) (acc : List Clip),
        page.data ≠ [] → page.cursor = "" →
          ggWalk (b + 1) (page :: rest) acc = ggPage page.data acc) ∧
    (∀ (page : Page) (rest : List Page) (b : Nat) (acc : List Clip),
        page.cursor = "" → parsePagesLoop (b + 1) (page :: rest) acc = acc) :=
  ⟨ggWalk_delivers, parsePagesLoop_drops⟩

/-- Witness for the amended C7 on a concrete cursorless page. -/
theorem walker_parse_versus_stop_order_witness :
    ggWalk 10 [pageNoCursor] [] = ggPage pageNoCursor.data [] ∧
      parsePagesLoop 10 [pageNoCursor] [] = [] :=
  ⟨walker_parse_versus_stop_order.1 pageNoCursor [] 9 [] (by decide) rfl,
    walker_parse_versus_stop_order.2 pageNoCursor [] 9 [] rfl⟩

/-- C8: the final clips.sort call is the stable sort by the composite key
(view_count, created_at) in descending order: the output is a permutation
of the input, sorted so that each clip is not key-smaller than any later
one, clips with equal keys retain their original relative order, and on
the two-clip scenario input the output starts with the 50-view clip. -/
theorem rank_stable_descending_sort :
    (∀ l : List Clip, (rankClips l).Perm l) ∧
    (∀ l : List Clip, (rankClips l).Pairwise rankLe) ∧
    (∀ (l : List Clip) (k : Nat × String),
        (rankClips l).filter (fun c => clipKey c == k)
          = l.filter (fun c => clipKey c == k)) ∧
    rankClips [clipA1, clipA2] = [clipA2, clipA1] :=
  ⟨rankClips_perm, rankClips_sorted, rankClips_filter_key, by decide⟩

/-- C9: rearrange always returns a permutation of its input, and whenever
the search fails or the list has at least 15 elements every swap has been
undone, the input coming back in its original order. Because the in-place
branch of dfs never fires, the search fails on every list of three or more
elements and rearrange is the identity throughout. -/
theorem rearrange_permutes_and_restores {α K : Type} [DecidableEq K]
    (clips : List α) (key : α → K) :
    (rearrange clips key).Perm clips ∧
    (15 ≤ clips.length → rearrange clips key = clips) ∧
    ((dfs clips key 1).1 = false →
      (dfs clips key 1).2 = clips ∧ rearrange clips key = clips) := by
  have hid := rearrange_id clips key
  refine ⟨by rw [hid], fun _ => hid, fun hf => ⟨?_, hid⟩⟩
  by_cases h3 : 3 ≤ clips.length
  · rw [dfs_false clips key 1 h3 (by omega)]
  · rw [dfs_short clips key 1 (by omega)] at hf
    exact absurd hf (by simp)

/-- Witness for C9: a 15-element list is returned untouched, and on a
4-element list the failing search leaves the list in its original order. -/
theorem rearrange_permutes_and_restores_witness :
    rearrange (List.replicate 15 "a") (fun s : String => s) = List.replicate 15 "a" ∧
      (dfs ["a", "b", "c", "d"] (fun s : String => s) 1).2 = ["a", "b", "c", "d"] :=
  ⟨(rearrange_permutes_and_restores (List.replicate 15 "a") (fun s => s)).2.1 (by decide),
    ((rearrange_permutes_and_restores ["a", "b", "c", "d"]
      (fun s => s)).2.2 (by decide)).1⟩

/-- C10: on every list of fewer than 3 elements dfs returns True at once
with the list untouched, so rearrange hands back a two-element list whose
elements share a key unchanged, treated as already satisfying the
constraint. -/
theorem dfs_trivial_below_three {α K : Type} [DecidableEq K] (key : α → K) :
    (∀ (l : List α) (i : Nat), l.length < 3 → dfs l key i = (true, l)) ∧
    (∀ a b : α, key a = key b →
      dfs [a, b] key 1 = (true, [a, b]) ∧ rearrange [a, b] key = [a, b]) := by
  constructor
  · intro l i h
    exact dfs_short l key i h
  · intro a b _
    exact ⟨dfs_short [a, b] key 1 (by simp), rearrange_id [a, b] key⟩

/-- Witness for C10 on concrete short lists with a shared key. -/
theorem dfs_trivial_below_three_witness :
    dfs ["x"] (fun s : String => s) 0 = (true, ["x"]) ∧
      rearrange ["u", "u"] (fun s : String => s) = ["u", "u"] :=
  ⟨(dfs_trivial_below_three (fun s => s)).1 ["x"] 0 (by decide),
    ((dfs_trivial_below_three (fun s => s)).2 "u" "u" rfl).2⟩
